import Mathlib

/-!
# Verification of the meal_engine pantry-deduction engine

A shallow embedding, in Lean 4, of the core subsystem of `app/utils.py`:
the quantity parser (`convert_quantity_to_float`), the unit sanitizer
(`sanitize_unit`), the unit registry (a faithful fragment of the pint
default registry plus the custom units the application loads at startup),
the pantry matcher and unit reconciler, and the consumption orchestrator
(`consume_ingredients_from_recipe`).

Modelling conventions:

* Python strings are modelled as `String` / `List Char`; the character
  operations (`lower`, `strip`, `rstrip`, `split`, `in`) are re-implemented
  over `List Char` with Python's semantics.  Case mapping and whitespace are
  modelled for the ASCII range (the repertoire all unit names and quantity
  strings in the application use).
* Python floats are modelled by `PyFloat`: an exact rational magnitude, or
  one of the non-finite values `inf`, `-inf`, `nan`.  IEEE-754 rounding of
  decimal literals and overflow of huge exponents to infinity are not
  modelled: magnitudes are kept as exact rationals (no claim in scope
  depends on rounding), but the acceptance of `"inf"`/`"infinity"`/`"nan"`
  by Python's `float()` constructor is modelled, because reachability of
  non-finite values is claim-relevant.
* Python exceptions are modelled with `Except`: `ValueError`,
  `ZeroDivisionError` (both caught by `convert_quantity_to_float`'s
  `except` clause), `IndexError` (not caught), and the pint error classes.
* Numeric magnitudes inside the reconciler are modelled as `ℚ` (exact)
  rather than binary floating point; the claims in scope concern control
  flow, matching, and the `max(0, ·)` clamp, none of which depend on
  rounding.
-/

namespace MealEngine

/-! ## Python character and string primitives -/

/-- Python's `str.lower` for the ASCII range: `'A'..'Z'` map to
`'a'..'z'`, all other characters are unchanged. -/
def pyToLower (c : Char) : Char :=
  if 65 ≤ c.toNat ∧ c.toNat ≤ 90 then Char.ofNat (c.toNat + 32) else c

/-- The whitespace characters stripped by Python's `str.strip()` (ASCII
range): space, tab, newline, carriage return, vertical tab, form feed. -/
def pySpace (c : Char) : Bool :=
  c = ' ' || c = '\t' || c = '\n' || c = '\r' ||
  c = Char.ofNat 11 || c = Char.ofNat 12

/-- Python's `str.strip()` (no argument): drop whitespace from both ends. -/
def pyStripChars (l : List Char) : List Char :=
  ((l.dropWhile pySpace).reverse.dropWhile pySpace).reverse

/-- Python's `str.rstrip('s')`: drop every trailing `'s'`. -/
def rstripS (l : List Char) : List Char :=
  (l.reverse.dropWhile (fun c => c = 's')).reverse

/-- Python's `str.split(sep)` for a one-character separator: splits at every
occurrence, keeping empty pieces, and always returns a non-empty list. -/
def splitChar (c : Char) : List Char → List (List Char)
  | [] => [[]]
  | x :: xs =>
    if x = c then
      [] :: splitChar c xs
    else
      match splitChar c xs with
      | [] => [[x]]
      | h :: t => (x :: h) :: t

/-- Python's substring test `needle in hay`, first the prefix test. -/
def isPrefixChars : List Char → List Char → Bool
  | [], _ => true
  | _ :: _, [] => false
  | a :: as, b :: bs => a = b && isPrefixChars as bs

/-- Python's substring test `needle in hay`. -/
def containsChars (needle : List Char) : List Char → Bool
  | [] => needle.isEmpty
  | b :: bs => isPrefixChars needle (b :: bs) || containsChars needle bs

/-! ## Python floats and the `float()` constructor

`PyFloat` models the values of Python's `float` type: an exact rational
magnitude or a non-finite value.  `pyFloatOfChars` models `float(s)` for a
string argument: `none` stands for the `ValueError` the constructor raises
on a malformed literal.  Deviations (all on inputs no claim touches):
decimal digits outside ASCII, underscores between digits, and the
overflow of huge literals such as `"1e999"` to infinity are not modelled;
magnitudes are exact rationals. -/

inductive PyFloat where
  | finite (q : ℚ)
  | inf
  | negInf
  | nan
deriving Repr, DecidableEq

/-- The numeric value of a list of decimal digits (most significant first). -/
def digitsVal (ds : List Char) : Nat :=
  ds.foldl (fun a c => a * 10 + (c.toNat - 48)) 0

/-- Split a mantissa from an optional exponent part at the first `e`/`E`. -/
def splitExp : List Char → List Char × Option (List Char)
  | [] => ([], none)
  | c :: r =>
    if c = 'e' ∨ c = 'E' then ([], some r)
    else
      match splitExp r with
      | (m, e) => (c :: m, e)

/-- Parse an optionally signed non-empty run of decimal digits (the
exponent of a float literal). -/
def parseExpPart (l : List Char) : Option ℤ :=
  let (neg, ds) :=
    match l with
    | '+' :: r => (false, r)
    | '-' :: r => (true, r)
    | r => (false, r)
  if ds ≠ [] ∧ ds.all Char.isDigit then
    some (if neg then -(digitsVal ds : ℤ) else (digitsVal ds : ℤ))
  else none

/-- Parse the unsigned body of a decimal float literal:
`digits [. digits] [(e|E) [sign] digits]`, with at least one digit in the
mantissa. -/
def parseDecimal (l : List Char) : Option ℚ :=
  let (mant, expPart) := splitExp l
  let intFrac := splitChar '.' mant
  match intFrac with
  | [i] =>
    if i ≠ [] ∧ i.all Char.isDigit then
      match expPart with
      | none => some (digitsVal i : ℚ)
      | some e => (parseExpPart e).map (fun z => (digitsVal i : ℚ) * (10 : ℚ) ^ z)
    else none
  | [i, f] =>
    if (i ++ f) ≠ [] ∧ i.all Char.isDigit ∧ f.all Char.isDigit then
      let q : ℚ := (digitsVal i : ℚ) + (digitsVal f : ℚ) / (10 : ℚ) ^ f.length
      match expPart with
      | none => some q
      | some e => (parseExpPart e).map (fun z => q * (10 : ℚ) ^ z)
    else none
  | _ => none

/-- Python's `float(s)` on a string: strip whitespace, take an optional
sign, then accept `inf`/`infinity`/`nan` (case-insensitively) or a decimal
literal.  `none` models the `ValueError` raised on anything else. -/
def pyFloatOfChars (l : List Char) : Option PyFloat :=
  let t := pyStripChars l
  let (neg, body) :=
    match t with
    | '+' :: r => (false, r)
    | '-' :: r => (true, r)
    | r => (false, r)
  let low := body.map pyToLower
  if low = "inf".data ∨ low = "infinity".data then
    some (if neg then .negInf else .inf)
  else if low = "nan".data then
    some .nan
  else
    (parseDecimal body).map (fun q => .finite (if neg then -q else q))

/-- The exception classes of the Python code paths in scope.
`valueError` and `zeroDivisionError` are the two classes
`convert_quantity_to_float` catches; `indexError` is not caught. -/
inductive PyError where
  | valueError
  | zeroDivisionError
  | indexError
deriving Repr, DecidableEq

/-- Python float division with a non-zero denominator: `nan` propagates,
infinities follow the usual rules, signed zeros are collapsed onto `0`. -/
def pyDivTotal : PyFloat → PyFloat → PyFloat
  | .nan, _ => .nan
  | _, .nan => .nan
  | .finite a, .finite b => .finite (a / b)
  | .finite _, .inf => .finite 0
  | .finite _, .negInf => .finite 0
  | .inf, .finite b => if 0 < b then .inf else .negInf
  | .negInf, .finite b => if 0 < b then .negInf else .inf
  | .inf, _ => .nan
  | .negInf, _ => .nan

/-- Python float division: division by (exactly) zero raises
`ZeroDivisionError` whatever the numerator. -/
def pyDiv (a b : PyFloat) : Except PyError PyFloat :=
  if b = .finite 0 then .error .zeroDivisionError else .ok (pyDivTotal a b)

/-- Python float addition. -/
def pyAdd : PyFloat → PyFloat → PyFloat
  | .nan, _ => .nan
  | _, .nan => .nan
  | .inf, .negInf => .nan
  | .negInf, .inf => .nan
  | .inf, _ => .inf
  | _, .inf => .inf
  | .negInf, _ => .negInf
  | _, .negInf => .negInf
  | .finite a, .finite b => .finite (a + b)

/-- Python list indexing: `l[i]`, raising `IndexError` when out of range. -/
def pyIndex (l : List (List Char)) (i : Nat) : Except PyError (List Char) :=
  match l.get? i with
  | some x => .ok x
  | none => .error .indexError

/-! ## `convert_quantity_to_float` (app/utils.py, lines 32–60)

The source takes an arbitrary value and coerces non-strings with
`float(...)` directly; the claims in scope only concern string inputs, so
the embedding models the `isinstance(quantity_str, str)` branch. -/

/-- The fixed table of unicode vulgar-fraction glyphs of the source
(line 41), with its literal decimal constants. -/
def unicodesTable : List (String × ℚ) :=
  [("½", 1 / 2), ("⅓", 33 / 100), ("⅔", 67 / 100),
   ("¼", 1 / 4), ("¾", 3 / 4), ("⅕", 1 / 5)]

/-- `float(l)` inside the `try:` block: a failed parse is the raised
`ValueError`. -/
def parseFloatE (l : List Char) : Except PyError PyFloat :=
  match pyFloatOfChars l with
  | some v => .ok v
  | none => .error PyError.valueError

/-- The mixed-number branch (`' ' in quantity_str and '/' in
quantity_str`): `parts = quantity_str.split(' ')`,
`whole_num = float(parts[0])`, `frac_parts = parts[1].split('/')`,
`float(frac_parts[0]) / float(frac_parts[1])` added to the whole part.
Note `frac_parts[1]` is only read after `float(frac_parts[0])` has
succeeded, and raises `IndexError` when `parts[1]` contains no slash. -/
def convertMixed (s : String) : Except PyError PyFloat := do
  let part0 ← pyIndex (splitChar ' ' s.data) 0
  let whole ← parseFloatE part0
  let part1 ← pyIndex (splitChar ' ' s.data) 1
  let num0 ← pyIndex (splitChar '/' part1) 0
  let num ← parseFloatE num0
  let den0 ← pyIndex (splitChar '/' part1) 1
  let den ← parseFloatE den0
  let frac ← pyDiv num den
  return pyAdd whole frac

/-- The bare-fraction branch (`'/' in quantity_str`):
`frac_parts = quantity_str.split('/')`, numerator over denominator. -/
def convertFrac (s : String) : Except PyError PyFloat := do
  let num0 ← pyIndex (splitChar '/' s.data) 0
  let num ← parseFloatE num0
  let den0 ← pyIndex (splitChar '/' s.data) 1
  let den ← parseFloatE den0
  pyDiv num den

/-- The plain branch: `float(quantity_str)`. -/
def convertPlain (s : String) : Except PyError PyFloat :=
  parseFloatE s.data

/-- The body of the `try:` block of `convert_quantity_to_float`: every
exception the statements can raise is returned as `Except.error`. -/
def convertBody (s : String) : Except PyError PyFloat :=
  match unicodesTable.find? (fun p => p.1 = s) with
  | some p => .ok (.finite p.2)
  | none =>
    if s.data.contains ' ' ∧ s.data.contains '/' then convertMixed s
    else if s.data.contains '/' then convertFrac s
    else convertPlain s

/-- `convert_quantity_to_float` on a string: the `try:` body with
`except (ValueError, ZeroDivisionError): return 0.0`.  Any other
exception class (in particular `IndexError`) propagates to the caller. -/
def convert_quantity_to_float (s : String) : Except PyError PyFloat :=
  match convertBody s with
  | .error .valueError => .ok (.finite 0)
  | .error .zeroDivisionError => .ok (.finite 0)
  | r => r

/-- The token shape on which the mixed-number branch reaches the
out-of-range `frac_parts[1]`: the first space-separated token parses as a
float, and the second contains no slash yet itself parses as a float. -/
def mixedIndexShape (s : String) : Bool :=
  (pyFloatOfChars ((splitChar ' ' s.data).getD 0 [])).isSome &&
  !((splitChar ' ' s.data).getD 1 []).contains '/' &&
  (pyFloatOfChars ((splitChar ' ' s.data).getD 1 [])).isSome

/-- The inputs on which the `try:` body of `convert_quantity_to_float`
raises `IndexError` (which its `except` clause does not catch): a string
that is not a vulgar-fraction glyph, contains both a space and a slash,
and has the token shape of `mixedIndexShape`. -/
def badMixedShape (s : String) : Bool :=
  s.data.contains ' ' && s.data.contains '/' &&
  (unicodesTable.find? (fun p => p.1 = s)).isNone &&
  mixedIndexShape s

/-! ## `sanitize_unit` (app/utils.py, lines 98–135) -/

/-- The static synonym table `unit_map` of `sanitize_unit`. -/
def unit_map : List (String × String) :=
  [ -- Standard Volume/Weight
   ("oz", "fluid_ounce"), ("ounce", "fluid_ounce"),
   ("lb", "pound"),
   ("cup", "cup"),
   ("tsp", "teaspoon"), ("teaspoon", "teaspoon"),
   ("tbsp", "tablespoon"), ("tablespoon", "tablespoon"),
   ("g", "gram"), ("gram", "gram"),
   ("kg", "kilogram"),
   ("ml", "milliliter"),
   -- Custom Mapped Units
   ("stick", "stick_of_butter"),
   -- Countable Dimensionless Units
   ("slice", "slice"),
   ("each", "each"),
   ("clove", "clove"),
   ("head", "head"),
   ("sprig", "sprig"),
   ("bunch", "bunch"),
   ("stalk", "stalk"),
   ("ear", "ear"),
   ("fillet", "fillet"),
   ("leaf", "leaf"),
   ("piece", "piece"),
   ("pat", "pat"),
   ("link", "link"),
   ("strip", "strip"),
   ("sheet", "sheet")]

/-- `sanitize_unit`: empty (or absent, since Python's `not` treats `None`
and `""` alike) maps to `"dimensionless"`; otherwise
`lower().strip().rstrip('s')` followed by the synonym-table lookup, with
unknown tokens passed through unchanged. -/
def sanitize_unit (unit_str : String) : String :=
  if unit_str = "" then "dimensionless"
  else
    let w : List Char := rstripS (pyStripChars (unit_str.data.map pyToLower))
    match unit_map.find? (fun p => p.1.data = w) with
    | some p => p.2
    | none => ⟨w⟩

/-- Whether a string's final character is Python-strippable whitespace
(the shape on which `sanitize_unit` fails to be idempotent, because the
trailing `rstrip('s')` can expose whitespace the earlier `strip()` had not
seen). -/
def endsWithPySpace (s : String) : Bool :=
  match s.data.getLast? with
  | some c => pySpace c
  | none => false

/-! ## Unit registry (pint + app/unit_definitions.txt)

The registry models the fragment of pint's default unit system the
application's sanitized unit names reach, with exact rational conversion
factors (pint's US-customary definitions): grams are the base of `[mass]`,
milliliters the base of `[volume]`, and `1` the base of the dimensionless
count units.

The file `app/unit_definitions.txt`, loaded at startup with
`ureg.load_definitions`, is not part of the sources available here; the
custom entries below are *modelled from the spec*: `stick_of_butter` is
half a cup, and `slice`, `each`, `clove`, `head`, `sprig`, `bunch`,
`stalk`, `ear`, `fillet`, `leaf`, `piece`, `pat`, `link`, `strip`,
`sheet` are countable dimensionless units (the source's own comment above
them reads "Countable Dimensionless Units"). -/

inductive Dim where
  | mass
  | volume
  | count
deriving Repr, DecidableEq

structure UnitDef where
  uname : String
  dim : Dim
  factor : ℚ
deriving Repr, DecidableEq

/-- One US cup in milliliters (pint: `cup = 8 fluid_ounce`,
`fluid_ounce = 29.5735295625 mL`). -/
def cupML : ℚ := 2365882365 / 10000000

/-- The unit table: a faithful fragment of pint's default registry plus
the startup custom units (see the section comment). -/
def unitTable : List UnitDef :=
  [⟨"gram", .mass, 1⟩,
   ⟨"kilogram", .mass, 1000⟩,
   ⟨"milligram", .mass, 1 / 1000⟩,
   ⟨"pound", .mass, 45359237 / 100000⟩,
   ⟨"milliliter", .volume, 1⟩,
   ⟨"liter", .volume, 1000⟩,
   ⟨"cup", .volume, cupML⟩,
   ⟨"fluid_ounce", .volume, cupML / 8⟩,
   ⟨"tablespoon", .volume, cupML / 16⟩,
   ⟨"teaspoon", .volume, cupML / 48⟩,
   ⟨"stick_of_butter", .volume, cupML / 2⟩,
   ⟨"dimensionless", .count, 1⟩,
   ⟨"slice", .count, 1⟩,
   ⟨"each", .count, 1⟩,
   ⟨"clove", .count, 1⟩,
   ⟨"head", .count, 1⟩,
   ⟨"sprig", .count, 1⟩,
   ⟨"bunch", .count, 1⟩,
   ⟨"stalk", .count, 1⟩,
   ⟨"ear", .count, 1⟩,
   ⟨"fillet", .count, 1⟩,
   ⟨"leaf", .count, 1⟩,
   ⟨"piece", .count, 1⟩,
   ⟨"pat", .count, 1⟩,
   ⟨"link", .count, 1⟩,
   ⟨"strip", .count, 1⟩,
   ⟨"sheet", .count, 1⟩]

/-- `ureg(u)` on a sanitized unit name: `none` models pint raising
`UndefinedUnitError` for a name the registry does not define. -/
def parseUnit (u : String) : Option UnitDef :=
  unitTable.find? (fun d => d.uname = u)

/-! ## Data model (app/models.py)

Only the fields the consumption engine reads.  Quantities, stored as
floats in the source, are modelled as exact rationals (the claims in
scope concern control flow and the zero clamp, not rounding). -/

structure Ingredient where
  iid : Nat
  name : String
deriving Repr, DecidableEq

structure PantryItem where
  pid : Nat
  householdId : Nat
  ingredient : Ingredient
  quantity : ℚ
  unit : Option String
deriving Repr, DecidableEq

structure RecipeIngredient where
  ingredient : Ingredient
  quantity : ℚ
  unit : Option String
deriving Repr, DecidableEq

structure Recipe where
  ingredients : List RecipeIngredient
deriving Repr

structure User where
  householdId : Nat
deriving Repr

/-! ## The cooking context (app/utils.py, lines 62–96)

`consume_ingredients_from_recipe` enters
`ureg.context('cooking', substance=...)`, whose transformations bridge
`[mass]` and `[volume]` through the `densities` table below.  The context
is behaviourally inert in this function: pint's
`Quantity.is_compatible_with`, when called with no explicit context
arguments (line 180), compares dimensionalities directly and ignores the
active context stack, so a mass/volume pair always fails the line-180 gate
and reaches the `raise DimensionalityError` on line 181 before any
conversion that could trigger a context transformation; conversions
between quantities of equal dimensionality never invoke the
`[mass]`↔`[volume]` transformations.  The substance keys are retained so
that "no bridging rule" can be stated. -/

/-- The substances of the `cooking_conversions`/`densities` tables. -/
def densitySubstances : List String :=
  ["all_purpose_flour", "bread_flour", "cake_flour", "whole_wheat_flour",
   "granulated_sugar", "brown_sugar", "powdered_sugar", "baking_soda",
   "baking_powder", "cocoa_powder", "cornstarch", "salt", "butter", "oil",
   "water", "milk", "heavy_cream", "honey", "molasses", "chopped_nuts",
   "oats", "rice_uncooked", "rice_cooked", "parmesan_cheese",
   "cooked_chicken"]

/-- `pantry_item.ingredient.name.lower().replace(" ", "_")` (line 176). -/
def substanceKey (name : String) : String :=
  ⟨(name.data.map pyToLower).map (fun c => if c = ' ' then '_' else c)⟩

/-- Whether the cooking context has a density (mass↔volume bridging) rule
for the matched pantry item's substance. -/
def hasBridge (item : PantryItem) : Bool :=
  densitySubstances.contains (substanceKey item.ingredient.name)

/-! ## Pantry matcher (app/utils.py, lines 149–172) -/

/-- `search_term.lower() in item.ingredient.name.lower()` (line 161). -/
def nameMatches (searchTerm itemName : String) : Bool :=
  containsChars (searchTerm.data.map pyToLower) (itemName.data.map pyToLower)

/-- First list element satisfying `pred`, with its position. -/
def findWithIdx (pred : PantryItem → Bool) : Nat → List PantryItem →
    Option (Nat × PantryItem)
  | _, [] => none
  | k, it :: rest =>
    if pred it then some (k, it) else findWithIdx pred (k + 1) rest

/-- All list elements satisfying `pred`, with their positions. -/
def filterWithIdx (pred : PantryItem → Bool) : Nat → List PantryItem →
    List (Nat × PantryItem)
  | _, [] => []
  | k, it :: rest =>
    if pred it then (k, it) :: filterWithIdx pred (k + 1) rest
    else filterWithIdx pred (k + 1) rest

inductive MatchOutcome where
  | found (k : Nat) (item : PantryItem)
  | ambiguous (names : List String)
  | noMatch
deriving Repr, DecidableEq

/-- Steps 1 and 2 of the loop body: the exact scan over `all_pantry_items`
(first item with the required `ingredient_id`, lines 151–154), then the
substring-based smart search (lines 157–168): one candidate is used as a
substitute, two or more are reported as ambiguous with every candidate
name, zero fall through to the silent skip (line 171). -/
def matchPantry (pantry : List PantryItem) (req : RecipeIngredient) :
    MatchOutcome :=
  match findWithIdx (fun it => it.ingredient.iid = req.ingredient.iid) 0 pantry with
  | some (k, item) => .found k item
  | none =>
    let subs := filterWithIdx (fun it => nameMatches req.ingredient.name it.ingredient.name) 0 pantry
    match subs with
    | [] => .noMatch
    | [(k, item)] => .found k item
    | _ => .ambiguous (subs.map (fun p => p.2.ingredient.name))

/-! ## Unit reconciler (app/utils.py, lines 175–189) -/

/-- The pint exception classes the `try:` block can raise. -/
inductive PintError where
  | undefinedUnit (u : String)
  | dimensionality (u1 : String) (d1 : Dim) (u2 : String) (d2 : Dim)
deriving Repr, DecidableEq

def dimStr : Dim → String
  | .mass => "[mass]"
  | .volume => "[volume]"
  | .count => "[dimensionless]"

/-- `str(e)` for the pint exception classes, after their message format;
the claims depend on which class is rendered, not on the exact wording. -/
def pintErrStr : PintError → String
  | .undefinedUnit u => "'" ++ u ++ "' is not defined in the unit registry"
  | .dimensionality u1 d1 u2 d2 =>
      "Cannot convert from '" ++ u1 ++ "' (" ++ dimStr d1 ++ ") to '" ++
      u2 ++ "' (" ++ dimStr d2 ++ ")"

/-- The `try:` body for a matched pantry item (lines 176–186): parse the
recipe unit then the pantry unit (an unknown unit raises
`UndefinedUnitError` at the corresponding `ureg(...)` call), gate on
`is_compatible_with` (dimensionality equality; see the cooking-context
note above), then deduct and clamp:
`max(0, (pantry_qty.to(recipe_units) - recipe_qty).to(pantry_units))`,
which in exact arithmetic is
`max 0 (pantry.quantity - req.quantity * ruf / puf)` in pantry units. -/
def reconcile (item : PantryItem) (req : RecipeIngredient) :
    Except PintError ℚ := do
  let ru ← match parseUnit (sanitize_unit (req.unit.getD "")) with
    | some u => .ok u
    | none => .error (PintError.undefinedUnit (sanitize_unit (req.unit.getD "")))
  let pu ← match parseUnit (sanitize_unit (item.unit.getD "")) with
    | some u => .ok u
    | none => .error (PintError.undefinedUnit (sanitize_unit (item.unit.getD "")))
  if ru.dim ≠ pu.dim then
    .error (PintError.dimensionality ru.uname ru.dim pu.uname pu.dim)
  else
    .ok (max 0 (item.quantity - req.quantity * ru.factor / pu.factor))

/-! ## Consumption orchestrator (app/utils.py, lines 138–191) -/

/-- What one loop iteration contributes to the two result lists. -/
inductive StepLog where
  | updatedName (name : String)
  | skippedEntry (entry : String)
  | silent
deriving Repr, DecidableEq

/-- One iteration of the `for req_ing in recipe.ingredients` loop: the
zero/absent-quantity guard (line 146), the matcher, then — for a resolved
item — the reconciler, whose success mutates the item in place
(`pantry.set`) and records the *pantry* ingredient name, and whose failure
records the *pantry* ingredient name with the stringified error (line 189).
An ambiguous match records the *required* ingredient name with the
candidate list (line 167). -/
def consumeStep (pantry : List PantryItem) (req : RecipeIngredient) :
    List PantryItem × StepLog :=
  if req.quantity ≤ 0 then (pantry, .silent)
  else
    match matchPantry pantry req with
    | .noMatch => (pantry, .silent)
    | .ambiguous names =>
        (pantry, .skippedEntry (req.ingredient.name ++
          " (Multiple substitutes found: " ++ String.intercalate ", " names ++ ")"))
    | .found k item =>
      match reconcile item req with
      | .ok newQty =>
          (pantry.set k { item with quantity := newQty },
           .updatedName item.ingredient.name)
      | .error e =>
          (pantry, .skippedEntry (item.ingredient.name ++ " (Error: " ++
            pintErrStr e ++ ")"))

structure ConsumeResult where
  pantry : List PantryItem
  updated : List String
  skipped : List String
deriving Repr, DecidableEq

/-- The whole loop: thread the pantry through every ingredient, appending
each iteration's contribution to `updated`/`skipped`. -/
def consumeLoop : List PantryItem → List RecipeIngredient → ConsumeResult
  | pantry, [] => ⟨pantry, [], []⟩
  | pantry, req :: rest =>
    match consumeStep pantry req with
    | (p, StepLog.updatedName n) =>
        let r := consumeLoop p rest
        ⟨r.pantry, n :: r.updated, r.skipped⟩
    | (p, StepLog.skippedEntry e) =>
        let r := consumeLoop p rest
        ⟨r.pantry, r.updated, e :: r.skipped⟩
    | (p, StepLog.silent) => consumeLoop p rest

/-- `consume_ingredients_from_recipe(user, recipe)`: read the household's
pantry snapshot (the `filter_by(household_id=...)` query, line 143), then
run the loop.  The source returns `(updated, skipped)` and mutates the
pantry rows in place; the result record carries the mutated pantry
explicitly. -/
def consume_ingredients_from_recipe (allItems : List PantryItem)
    (user : User) (recipe : Recipe) : ConsumeResult :=
  consumeLoop (allItems.filter (fun it => it.householdId = user.householdId))
    recipe.ingredients

/-! ## Infrastructure lemmas -/

theorem exceptBindOk {α β ε : Type} (a : α) (f : α → Except ε β) :
    (Except.ok a >>= f) = f a := rfl

theorem exceptBindErr {α β ε : Type} (e : ε) (f : α → Except ε β) :
    ((Except.error e : Except ε α) >>= f) = Except.error e := rfl

theorem splitChar_ne_nil (c : Char) (l : List Char) : splitChar c l ≠ [] := by
  induction l with
  | nil => simp [splitChar]
  | cons x xs ih =>
    by_cases hx : x = c
    · simp [splitChar, hx]
    · simp only [splitChar, if_neg hx]
      cases h : splitChar c xs <;> simp

theorem splitChar_length_of_mem {c : Char} {l : List Char} (h : c ∈ l) :
    2 ≤ (splitChar c l).length := by
  induction l with
  | nil => cases h
  | cons x xs ih =>
    by_cases hx : x = c
    · have hne := splitChar_ne_nil c xs
      have hpos : 0 < (splitChar c xs).length := List.length_pos.mpr hne
      simp only [splitChar, if_pos hx, List.length_cons]
      omega
    · have hmem : c ∈ xs := by
        cases h with
        | head => exact absurd rfl hx
        | tail _ h' => exact h'
      have h2 := ih hmem
      simp only [splitChar, if_neg hx]
      cases hs : splitChar c xs with
      | nil => exact absurd hs (splitChar_ne_nil c xs)
      | cons hd tl =>
        rw [hs] at h2
        simpa using h2

theorem splitChar_of_not_mem {c : Char} {l : List Char} (h : c ∉ l) :
    splitChar c l = [l] := by
  induction l with
  | nil => rfl
  | cons x xs ih =>
    have hx : ¬ x = c := fun hxc => h (hxc ▸ List.mem_cons_self x xs)
    have hxs : c ∉ xs := fun hc => h (List.mem_cons_of_mem x hc)
    simp only [splitChar, if_neg hx, ih hxs]

theorem mem_of_contains {c : Char} {l : List Char} (h : l.contains c = true) :
    c ∈ l := by
  simpa using h

theorem not_mem_of_not_contains {c : Char} {l : List Char}
    (h : l.contains c = false) : c ∉ l := by
  simpa using h

/-! ## C9: the unicode vulgar-fraction table -/

/-- C9: for every quantity string in the fixed unicode vulgar-fraction
table (½, ⅓, ⅔, ¼, ¾, ⅕), `convert_quantity_to_float` returns exactly the
decimal constant the source documents for that glyph: ½ → 0.5, ⅓ → 0.33,
⅔ → 0.67, ¼ → 0.25, ¾ → 0.75, ⅕ → 0.2. -/
theorem C9_unicode_fraction_constants :
    convert_quantity_to_float "½" = .ok (.finite (1 / 2)) ∧
    convert_quantity_to_float "⅓" = .ok (.finite (33 / 100)) ∧
    convert_quantity_to_float "⅔" = .ok (.finite (67 / 100)) ∧
    convert_quantity_to_float "¼" = .ok (.finite (1 / 4)) ∧
    convert_quantity_to_float "¾" = .ok (.finite (3 / 4)) ∧
    convert_quantity_to_float "⅕" = .ok (.finite (1 / 5)) := by
  refine ⟨rfl, rfl, rfl, rfl, rfl, rfl⟩

/-! ## C2: the orchestrator always completes and never aborts early -/

/-- C2: `consume_ingredients_from_recipe` is a total function returning
the two lists for any pantry and recipe (in this embedding it is a
terminating `def`, and every per-ingredient failure surfaces only as a
`skipped` entry — the step function has no error result), and it never
aborts early: processing a recipe's ingredient list decomposes ingredient
by ingredient, so the outcome of any prefix of the list — including every
skip — leaves the remaining ingredients to be processed from the
resulting pantry state, their contributions appended after the prefix's. -/
theorem C2_totality_and_no_early_abort
    (allItems : List PantryItem) (user : User) (recipe : Recipe)
    (pantry : List PantryItem) (xs ys : List RecipeIngredient) :
    consume_ingredients_from_recipe allItems user recipe =
      consumeLoop (allItems.filter (fun it => it.householdId = user.householdId))
        recipe.ingredients ∧
    consumeLoop pantry (xs ++ ys) =
      ⟨(consumeLoop (consumeLoop pantry xs).pantry ys).pantry,
       (consumeLoop pantry xs).updated ++
         (consumeLoop (consumeLoop pantry xs).pantry ys).updated,
       (consumeLoop pantry xs).skipped ++
         (consumeLoop (consumeLoop pantry xs).pantry ys).skipped⟩ := by
  refine ⟨rfl, ?_⟩
  induction xs generalizing pantry with
  | nil => simp [consumeLoop]
  | cons req rest ih =>
    simp only [List.cons_append, consumeLoop]
    cases h : consumeStep pantry req with
    | mk p log =>
      cases log <;> simp [ih p]

/-! ## Matcher lemmas -/

theorem findWithIdx_none {q : PantryItem → Bool} {l : List PantryItem}
    (h : ∀ it ∈ l, q it = false) (n : Nat) :
    findWithIdx q n l = none := by
  induction l generalizing n with
  | nil => rfl
  | cons x xs ih =>
    have hx := h x (List.mem_cons_self x xs)
    simp only [findWithIdx, hx, Bool.false_eq_true, if_false]
    exact ih (fun it hit => h it (List.mem_cons_of_mem x hit)) (n + 1)

theorem findWithIdx_of_filter_cons {pred : PantryItem → Bool}
    {l : List PantryItem} {it : PantryItem} {rest : List PantryItem}
    (h : l.filter pred = it :: rest) (n : Nat) :
    ∃ j, findWithIdx pred n l = some (n + j, it) ∧ l.get? j = some it := by
  induction l generalizing n with
  | nil => simp [List.filter] at h
  | cons x xs ih =>
    by_cases hx : pred x
    · rw [List.filter_cons_of_pos hx] at h
      obtain ⟨hx1, _⟩ := List.cons.inj h
      subst hx1
      refine ⟨0, ?_, ?_⟩
      · simp [findWithIdx, hx]
      · simp
    · rw [List.filter_cons_of_neg hx] at h
      obtain ⟨j, hfind, hget⟩ := ih h (n + 1)
      refine ⟨j + 1, ?_, ?_⟩
      · simp only [findWithIdx, hx, Bool.false_eq_true, if_false]
        rw [(by omega : n + (j + 1) = n + 1 + j)]
        exact hfind
      · simpa using hget

theorem filterWithIdx_map_snd (pred : PantryItem → Bool)
    (l : List PantryItem) (n : Nat) :
    (filterWithIdx pred n l).map Prod.snd = l.filter pred := by
  induction l generalizing n with
  | nil => rfl
  | cons x xs ih =>
    by_cases hx : pred x
    · simp [filterWithIdx, List.filter_cons_of_pos hx, hx, ih]
    · simp [filterWithIdx, List.filter_cons_of_neg hx, hx, ih]

/-! ## C5: exact identity match has highest priority -/

/-- C5: if the pantry contains exactly one item whose ingredient identity
equals the required ingredient's identity, the matcher resolves to that
item — regardless of what other pantry items are named, so in particular
even when their names contain the required name as a substring. -/
theorem C5_exact_match_priority (pantry : List PantryItem)
    (req : RecipeIngredient) (item : PantryItem)
    (h : pantry.filter (fun it => it.ingredient.iid = req.ingredient.iid)
           = [item]) :
    ∃ k, matchPantry pantry req = .found k item ∧ pantry.get? k = some item := by
  obtain ⟨j, hfind, hget⟩ := findWithIdx_of_filter_cons h 0
  exact ⟨j, by simp [matchPantry, hfind], hget⟩

/-- Witness for C5: a pantry with an exact `chicken` entry and a
similarly-named `chicken broth` entry resolves to the exact entry. -/
theorem C5_witness :
    ∃ k, matchPantry
        ([⟨1, 1, ⟨7, "chicken broth"⟩, 2, some "cup"⟩,
          ⟨2, 1, ⟨4, "chicken"⟩, 3, some "pound"⟩] : List PantryItem)
        (⟨⟨4, "chicken"⟩, 1, some "lb"⟩ : RecipeIngredient)
      = .found k (⟨2, 1, ⟨4, "chicken"⟩, 3, some "pound"⟩ : PantryItem) ∧
      ([⟨1, 1, ⟨7, "chicken broth"⟩, 2, some "cup"⟩,
        ⟨2, 1, ⟨4, "chicken"⟩, 3, some "pound"⟩] : List PantryItem).get? k
        = some (⟨2, 1, ⟨4, "chicken"⟩, 3, some "pound"⟩ : PantryItem) :=
  C5_exact_match_priority _ _ _ (by decide)

theorem filterWithIdx_nil {q : PantryItem → Bool} {l : List PantryItem}
    (h : ∀ it ∈ l, q it = false) (n : Nat) :
    filterWithIdx q n l = [] := by
  have hm := filterWithIdx_map_snd q l n
  rw [List.filter_eq_nil_iff.mpr (fun a ha => by simp [h a ha])] at hm
  exact List.map_eq_nil_iff.mp hm

/-! ## C8: no pantry entry at all is silently skipped -/

/-- C8: when the required ingredient has no pantry entry at all — no item
with its ingredient identity and no item whose name contains the required
name as a case-insensitive substring — the iteration contributes nothing:
no `updated` entry, no `skipped` entry, no pantry change, and the loop
over the remaining ingredients proceeds exactly as if the ingredient were
absent. -/
theorem C8_absent_ingredient_silent_skip (pantry : List PantryItem)
    (req : RecipeIngredient) (rest : List RecipeIngredient)
    (hno : ∀ it ∈ pantry, ¬ it.ingredient.iid = req.ingredient.iid)
    (hfz : ∀ it ∈ pantry,
      nameMatches req.ingredient.name it.ingredient.name = false) :
    consumeStep pantry req = (pantry, .silent) ∧
    consumeLoop pantry (req :: rest) = consumeLoop pantry rest := by
  have hmatch : matchPantry pantry req = .noMatch := by
    have hfind := findWithIdx_none
      (q := fun it => it.ingredient.iid = req.ingredient.iid)
      (l := pantry)
      (fun it hit => by simp [hno it hit]) 0
    have hfilter := filterWithIdx_nil
      (q := fun it => nameMatches req.ingredient.name it.ingredient.name)
      hfz 0
    simp [matchPantry, hfind, hfilter]
  have hstep : consumeStep pantry req = (pantry, .silent) := by
    by_cases hq : req.quantity ≤ 0
    · simp [consumeStep, hq]
    · simp [consumeStep, hq, hmatch]
  refine ⟨hstep, ?_⟩
  simp [consumeLoop, hstep]

/-- Witness for C8: a recipe needing chicken against a pantry holding
only flour changes nothing and reports nothing. -/
theorem C8_witness :
    consumeStep ([⟨1, 1, ⟨3, "flour"⟩, 5, some "cup"⟩] : List PantryItem)
        (⟨⟨9, "chicken"⟩, 1, some "lb"⟩ : RecipeIngredient)
      = (([⟨1, 1, ⟨3, "flour"⟩, 5, some "cup"⟩] : List PantryItem), .silent) ∧
    consumeLoop ([⟨1, 1, ⟨3, "flour"⟩, 5, some "cup"⟩] : List PantryItem)
        [⟨⟨9, "chicken"⟩, 1, some "lb"⟩]
      = consumeLoop ([⟨1, 1, ⟨3, "flour"⟩, 5, some "cup"⟩] : List PantryItem) [] :=
  C8_absent_ingredient_silent_skip _ _ _ (by decide) (by decide)

/-! ## C4: two or more fuzzy candidates are reported, never guessed -/

/-- C4: with no exact match and at least two pantry items whose names
contain the required name as a case-insensitive substring, the iteration
reports the ingredient as skipped, listing every candidate substitute
name, mutates no pantry quantity, and the remaining ingredients are still
processed (their contributions follow the ambiguous entry). -/
theorem C4_ambiguous_substitutes_reported (pantry : List PantryItem)
    (req : RecipeIngredient) (rest : List RecipeIngredient)
    (cands : List PantryItem)
    (hq : 0 < req.quantity)
    (hno : ∀ it ∈ pantry, ¬ it.ingredient.iid = req.ingredient.iid)
    (hsubs : pantry.filter
      (fun it => nameMatches req.ingredient.name it.ingredient.name) = cands)
    (hlen : 2 ≤ cands.length) :
    consumeStep pantry req =
      (pantry, .skippedEntry (req.ingredient.name ++
        " (Multiple substitutes found: " ++
        String.intercalate ", " (cands.map (fun it => it.ingredient.name)) ++ ")")) ∧
    consumeLoop pantry (req :: rest) =
      ⟨(consumeLoop pantry rest).pantry, (consumeLoop pantry rest).updated,
       (req.ingredient.name ++ " (Multiple substitutes found: " ++
        String.intercalate ", " (cands.map (fun it => it.ingredient.name)) ++ ")")
         :: (consumeLoop pantry rest).skipped⟩ := by
  have hfind := findWithIdx_none
    (q := fun it => it.ingredient.iid = req.ingredient.iid)
    (l := pantry)
    (fun it hit => by simp [hno it hit]) 0
  have hmapsnd := filterWithIdx_map_snd
    (fun it => nameMatches req.ingredient.name it.ingredient.name) pantry 0
  rw [hsubs] at hmapsnd
  have hmatch : matchPantry pantry req =
      .ambiguous (cands.map (fun it => it.ingredient.name)) := by
    cases hs : filterWithIdx
        (fun it => nameMatches req.ingredient.name it.ingredient.name) 0 pantry with
    | nil =>
      rw [hs] at hmapsnd
      simp only [List.map_nil] at hmapsnd
      rw [← hmapsnd] at hlen
      simp at hlen
    | cons a t1 =>
      cases t1 with
      | nil =>
        rw [hs] at hmapsnd
        rw [← hmapsnd] at hlen
        simp at hlen
      | cons b t2 =>
        simp only [matchPantry, hfind, hs]
        have : ((a :: b :: t2).map Prod.snd).map
            (fun it => it.ingredient.name)
            = cands.map (fun it => it.ingredient.name) := by
          rw [← hs, hmapsnd]
        rw [List.map_map] at this
        exact congrArg MatchOutcome.ambiguous this
  have hstep : consumeStep pantry req =
      (pantry, .skippedEntry (req.ingredient.name ++
        " (Multiple substitutes found: " ++
        String.intercalate ", " (cands.map (fun it => it.ingredient.name)) ++ ")")) := by
    simp [consumeStep, not_le.mpr hq, hmatch]
  refine ⟨hstep, ?_⟩
  simp [consumeLoop, hstep]

/-- Witness for C4: required `milk` with pantry entries `almond milk` and
`oat milk` (and an unrelated exact-less pantry) is reported with both
candidate names and leaves the pantry untouched. -/
theorem C4_witness :
    consumeStep
        ([⟨1, 1, ⟨21, "almond milk"⟩, 2, some "cup"⟩,
          ⟨2, 1, ⟨22, "oat milk"⟩, 1, some "cup"⟩] : List PantryItem)
        (⟨⟨5, "milk"⟩, 1, some "cup"⟩ : RecipeIngredient)
      = (([⟨1, 1, ⟨21, "almond milk"⟩, 2, some "cup"⟩,
           ⟨2, 1, ⟨22, "oat milk"⟩, 1, some "cup"⟩] : List PantryItem),
         .skippedEntry
           "milk (Multiple substitutes found: almond milk, oat milk)") ∧
    consumeLoop
        ([⟨1, 1, ⟨21, "almond milk"⟩, 2, some "cup"⟩,
          ⟨2, 1, ⟨22, "oat milk"⟩, 1, some "cup"⟩] : List PantryItem)
        [⟨⟨5, "milk"⟩, 1, some "cup"⟩]
      = ⟨([⟨1, 1, ⟨21, "almond milk"⟩, 2, some "cup"⟩,
           ⟨2, 1, ⟨22, "oat milk"⟩, 1, some "cup"⟩] : List PantryItem), [],
         ["milk (Multiple substitutes found: almond milk, oat milk)"]⟩ := by
  have h := C4_ambiguous_substitutes_reported
    ([⟨1, 1, ⟨21, "almond milk"⟩, 2, some "cup"⟩,
      ⟨2, 1, ⟨22, "oat milk"⟩, 1, some "cup"⟩] : List PantryItem)
    (⟨⟨5, "milk"⟩, 1, some "cup"⟩ : RecipeIngredient) []
    ([⟨1, 1, ⟨21, "almond milk"⟩, 2, some "cup"⟩,
      ⟨2, 1, ⟨22, "oat milk"⟩, 1, some "cup"⟩] : List PantryItem)
    (by norm_num) (by decide) (by decide) (by decide)
  simpa [consumeLoop] using h

/-! ## Reconciler lemmas -/

theorem unitTable_factor_pos : ∀ d ∈ unitTable, 0 < d.factor := by
  intro d hd
  fin_cases hd <;> norm_num [cupML]

theorem parseUnit_factor_pos {s : String} {u : UnitDef}
    (h : parseUnit s = some u) : 0 < u.factor :=
  unitTable_factor_pos u (List.mem_of_find?_eq_some h)

theorem reconcile_of_parse {item : PantryItem} {req : RecipeIngredient}
    {ru pu : UnitDef}
    (hru : parseUnit (sanitize_unit (req.unit.getD "")) = some ru)
    (hpu : parseUnit (sanitize_unit (item.unit.getD "")) = some pu) :
    reconcile item req =
      if ru.dim ≠ pu.dim then
        .error (.dimensionality ru.uname ru.dim pu.uname pu.dim)
      else
        .ok (max 0 (item.quantity - req.quantity * ru.factor / pu.factor)) := by
  simp only [reconcile, hru, hpu, exceptBindOk]

theorem reconcile_ok_nonneg {item : PantryItem} {req : RecipeIngredient}
    {q : ℚ} (h : reconcile item req = .ok q) : 0 ≤ q := by
  unfold reconcile at h
  cases hru : parseUnit (sanitize_unit (req.unit.getD "")) with
  | none => rw [hru] at h; simp [exceptBindOk, exceptBindErr] at h
  | some ru =>
    rw [hru] at h
    cases hpu : parseUnit (sanitize_unit (item.unit.getD "")) with
    | none => rw [hpu] at h; simp [exceptBindOk, exceptBindErr] at h
    | some pu =>
      rw [hpu] at h
      simp only [exceptBindOk] at h
      by_cases hd : ru.dim ≠ pu.dim
      · rw [if_pos hd] at h; cases h
      · rw [if_neg hd] at h
        cases h
        exact le_max_left 0 _

theorem consumeStep_pantry_nonneg (pantry : List PantryItem)
    (req : RecipeIngredient) (h : ∀ it ∈ pantry, 0 ≤ it.quantity) :
    ∀ it ∈ (consumeStep pantry req).1, 0 ≤ it.quantity := by
  by_cases hq : req.quantity ≤ 0
  · simpa [consumeStep, hq] using h
  · cases hm : matchPantry pantry req with
    | noMatch => simpa [consumeStep, hq, hm] using h
    | ambiguous names => simpa [consumeStep, hq, hm] using h
    | found k item =>
      cases hr : reconcile item req with
      | error e => simpa [consumeStep, hq, hm, hr] using h
      | ok q =>
        simp only [consumeStep, hq, hm, hr, if_false]
        intro it hit
        rcases List.mem_or_eq_of_mem_set hit with hmem | heq
        · exact h it hmem
        · rw [heq]
          exact reconcile_ok_nonneg hr

theorem consumeLoop_pantry_nonneg (ings : List RecipeIngredient) :
    ∀ pantry : List PantryItem, (∀ it ∈ pantry, 0 ≤ it.quantity) →
    ∀ it ∈ (consumeLoop pantry ings).pantry, 0 ≤ it.quantity := by
  induction ings with
  | nil => intro pantry h; exact h
  | cons req rest ih =>
    intro pantry h
    have hstep := consumeStep_pantry_nonneg pantry req h
    simp only [consumeLoop]
    cases hs : consumeStep pantry req with
    | mk p log =>
      rw [hs] at hstep
      cases log <;> simpa using ih p hstep

/-! ## C3: deduction clamps at zero, never negative -/

/-- C3: (a) a consumption run never drives any pantry quantity negative —
from a pantry of non-negative quantities, every quantity in the resulting
pantry is still non-negative; (b) when the reconciler deducts a
requirement exceeding what is on hand (in common units,
`pantry·pu < required·ru`), the stored quantity is clamped to exactly 0. -/
theorem C3_deduction_clamped_at_zero :
    (∀ (allItems : List PantryItem) (user : User) (recipe : Recipe),
      (∀ it ∈ allItems, 0 ≤ it.quantity) →
      ∀ it ∈ (consume_ingredients_from_recipe allItems user recipe).pantry,
        0 ≤ it.quantity) ∧
    (∀ (pantry : List PantryItem) (req : RecipeIngredient) (k : Nat)
       (item : PantryItem) (ru pu : UnitDef),
      0 < req.quantity →
      matchPantry pantry req = .found k item →
      parseUnit (sanitize_unit (req.unit.getD "")) = some ru →
      parseUnit (sanitize_unit (item.unit.getD "")) = some pu →
      ru.dim = pu.dim →
      item.quantity * pu.factor < req.quantity * ru.factor →
      consumeStep pantry req =
        (pantry.set k { item with quantity := 0 },
         .updatedName item.ingredient.name)) := by
  constructor
  · intro allItems user recipe h
    exact consumeLoop_pantry_nonneg recipe.ingredients _
      (fun it hit => h it (List.mem_of_mem_filter hit))
  · intro pantry req k item ru pu hq hm hru hpu hdim hlt
    have hpuf := parseUnit_factor_pos hpu
    have hclamp : max 0 (item.quantity - req.quantity * ru.factor / pu.factor)
        = 0 := by
      apply max_eq_left
      have hdiv : item.quantity < req.quantity * ru.factor / pu.factor :=
        (lt_div_iff₀ hpuf).mpr hlt
      linarith
    have hrec : reconcile item req = .ok 0 := by
      rw [reconcile_of_parse hru hpu, if_neg (by simp [hdim]), hclamp]
    simp [consumeStep, not_le.mpr hq, hm, hrec]

/-- Witness for C3: deducting 7 cups of flour from a 2-cup pantry entry
stores exactly 0, and the run preserves non-negativity. -/
theorem C3_witness :
    (∀ it ∈ (consume_ingredients_from_recipe
        ([⟨1, 1, ⟨3, "flour"⟩, 2, some "cup"⟩] : List PantryItem)
        ⟨1⟩ ⟨[⟨⟨3, "flour"⟩, 7, some "cup"⟩]⟩).pantry,
      0 ≤ it.quantity) ∧
    consumeStep ([⟨1, 1, ⟨3, "flour"⟩, 2, some "cup"⟩] : List PantryItem)
        (⟨⟨3, "flour"⟩, 7, some "cup"⟩ : RecipeIngredient)
      = (([⟨1, 1, ⟨3, "flour"⟩, 2, some "cup"⟩] : List PantryItem).set 0
           { (⟨1, 1, ⟨3, "flour"⟩, 2, some "cup"⟩ : PantryItem) with
             quantity := 0 },
         .updatedName "flour") :=
  ⟨C3_deduction_clamped_at_zero.1 _ _ _ (by decide),
   C3_deduction_clamped_at_zero.2 _ _ 0 _ ⟨"cup", .volume, cupML⟩
     ⟨"cup", .volume, cupML⟩ (by decide) (by decide) rfl rfl rfl
     (by norm_num [cupML])⟩

/-! ## C1: mass vs. volume is a reported dimensionality mismatch -/

/-- C1: whenever the matched pantry entry's unit is a volume unit and the
recipe requirement's unit is a mass unit, and the cooking context has no
bridging (density) rule for the pantry item's substance, the iteration
leaves the pantry — in particular that item's quantity — unchanged and
reports the ingredient as skipped with a dimensionality-mismatch reason.
(Mass and volume are incompatible in this reconciler unless the two units
share a dimension, e.g. both are countable/dimensionless; the bridging
rules never apply because the line-180 compatibility gate ignores the
active context.) -/
theorem C1_mass_volume_mismatch_skipped (pantry : List PantryItem)
    (req : RecipeIngredient) (k : Nat) (item : PantryItem) (ru pu : UnitDef)
    (hq : 0 < req.quantity)
    (hm : matchPantry pantry req = .found k item)
    (hru : parseUnit (sanitize_unit (req.unit.getD "")) = some ru)
    (hpu : parseUnit (sanitize_unit (item.unit.getD "")) = some pu)
    (hrd : ru.dim = .mass)
    (hpd : pu.dim = .volume)
    (_hnb : hasBridge item = false) :
    consumeStep pantry req =
      (pantry, .skippedEntry (item.ingredient.name ++ " (Error: " ++
        pintErrStr (.dimensionality ru.uname .mass pu.uname .volume) ++ ")")) := by
  have hrec : reconcile item req =
      .error (.dimensionality ru.uname ru.dim pu.uname pu.dim) := by
    rw [reconcile_of_parse hru hpu, if_pos (by rw [hrd, hpd]; simp)]
  rw [hrd, hpd] at hrec
  simp [consumeStep, not_le.mpr hq, hm, hrec]

/-- Witness for C1: 100 g of flour required against a 2-cup pantry entry
(`flour` has no density rule) is skipped with the dimensionality reason
and the pantry is unchanged. -/
theorem C1_witness :
    consumeStep ([⟨1, 1, ⟨3, "flour"⟩, 2, some "cup"⟩] : List PantryItem)
        (⟨⟨3, "flour"⟩, 100, some "g"⟩ : RecipeIngredient)
      = (([⟨1, 1, ⟨3, "flour"⟩, 2, some "cup"⟩] : List PantryItem),
         .skippedEntry ("flour (Error: " ++
           pintErrStr (.dimensionality "gram" .mass "cup" .volume) ++ ")")) :=
  C1_mass_volume_mismatch_skipped _ _ 0 ⟨1, 1, ⟨3, "flour"⟩, 2, some "cup"⟩
    ⟨"gram", .mass, 1⟩ ⟨"cup", .volume, cupML⟩
    (by decide) (by decide) rfl rfl rfl rfl (by decide)

/-! ## C10: how skipped entries are labeled -/

/-- C10: skipped entries are single strings that embed the reason (the
`skipped` collection has type `List String`).  An ambiguous-match entry is
labeled with the *required* ingredient's name, while a
reconciliation-failure entry is labeled with the *matched pantry item's*
ingredient name — which, when the match was fuzzy, can differ from the
required name, as the concrete `milk`/`almond milk` run shows. -/
theorem C10_skipped_entry_labels :
    (∀ (pantry : List PantryItem) (req : RecipeIngredient)
       (names : List String),
      0 < req.quantity →
      matchPantry pantry req = .ambiguous names →
      consumeStep pantry req =
        (pantry, .skippedEntry (req.ingredient.name ++
          " (Multiple substitutes found: " ++
          String.intercalate ", " names ++ ")"))) ∧
    (∀ (pantry : List PantryItem) (req : RecipeIngredient) (k : Nat)
       (item : PantryItem) (e : PintError),
      0 < req.quantity →
      matchPantry pantry req = .found k item →
      reconcile item req = .error e →
      consumeStep pantry req =
        (pantry, .skippedEntry (item.ingredient.name ++ " (Error: " ++
          pintErrStr e ++ ")"))) ∧
    consumeLoop ([⟨1, 1, ⟨9, "almond milk"⟩, 3, some "gram"⟩] : List PantryItem)
        [⟨⟨5, "milk"⟩, 1, some "cup"⟩]
      = ⟨([⟨1, 1, ⟨9, "almond milk"⟩, 3, some "gram"⟩] : List PantryItem), [],
         ["almond milk (Error: Cannot convert from 'cup' ([volume]) to " ++
          "'gram' ([mass]))"]⟩ ∧
    ("almond milk" : String) ≠ "milk" := by
  refine ⟨?_, ?_, ?_, by decide⟩
  · intro pantry req names hq hm
    simp [consumeStep, not_le.mpr hq, hm]
  · intro pantry req k item e hq hm hr
    simp [consumeStep, not_le.mpr hq, hm, hr]
  · rfl

/-- Witness for C10: the ambiguous label at a concrete ambiguous match,
and the failure label at a concrete fuzzy match with a unit mismatch. -/
theorem C10_witness :
    consumeStep
        ([⟨1, 1, ⟨21, "almond milk"⟩, 2, some "cup"⟩,
          ⟨2, 1, ⟨22, "oat milk"⟩, 1, some "cup"⟩] : List PantryItem)
        (⟨⟨5, "milk"⟩, 2, some "cup"⟩ : RecipeIngredient)
      = (([⟨1, 1, ⟨21, "almond milk"⟩, 2, some "cup"⟩,
           ⟨2, 1, ⟨22, "oat milk"⟩, 1, some "cup"⟩] : List PantryItem),
         .skippedEntry ("milk (Multiple substitutes found: " ++
           String.intercalate ", " ["almond milk", "oat milk"] ++ ")")) ∧
    consumeStep ([⟨1, 1, ⟨9, "almond milk"⟩, 3, some "gram"⟩] : List PantryItem)
        (⟨⟨5, "milk"⟩, 1, some "cup"⟩ : RecipeIngredient)
      = (([⟨1, 1, ⟨9, "almond milk"⟩, 3, some "gram"⟩] : List PantryItem),
         .skippedEntry ("almond milk (Error: " ++
           pintErrStr (.dimensionality "cup" .volume "gram" .mass) ++ ")")) :=
  ⟨C10_skipped_entry_labels.1 _ _ ["almond milk", "oat milk"]
     (by decide) (by decide),
   C10_skipped_entry_labels.2.1 _ _ 0 ⟨1, 1, ⟨9, "almond milk"⟩, 3, some "gram"⟩
     (.dimensionality "cup" .volume "gram" .mass) (by decide) (by decide) rfl⟩

/-! ## Sanitizer lemmas (for C6) -/

theorem charToNat_ofNat {n : Nat} (h : n < 55296) : (Char.ofNat n).toNat = n := by
  unfold Char.ofNat
  split
  · rfl
  · exact absurd (Or.inl h) (by assumption)

theorem pyToLower_idem (c : Char) : pyToLower (pyToLower c) = pyToLower c := by
  by_cases h : 65 ≤ c.toNat ∧ c.toNat ≤ 90
  · simp only [pyToLower, if_pos h]
    have hv : (Char.ofNat (c.toNat + 32)).toNat = c.toNat + 32 :=
      charToNat_ofNat (by omega)
    rw [if_neg]
    rw [hv]
    omega
  · simp only [pyToLower, if_neg h]

theorem map_id_of_mem {l : List Char} {f : Char → Char}
    (h : ∀ c ∈ l, f c = c) : l.map f = l := by
  induction l with
  | nil => rfl
  | cons x xs ih =>
    simp [h x (List.mem_cons_self x xs),
      ih (fun c hc => h c (List.mem_cons_of_mem x hc))]

theorem reverseDropWhile_prefix (p : Char → Bool) (l : List Char) :
    ∃ t, l = (l.reverse.dropWhile p).reverse ++ t := by
  refine ⟨(l.reverse.takeWhile p).reverse, ?_⟩
  calc l = l.reverse.reverse := (List.reverse_reverse l).symm
  _ = (l.reverse.takeWhile p ++ l.reverse.dropWhile p).reverse := by
      rw [List.takeWhile_append_dropWhile]
  _ = (l.reverse.dropWhile p).reverse ++ (l.reverse.takeWhile p).reverse :=
      List.reverse_append _ _

theorem rstripS_prefix (l : List Char) : ∃ t, l = rstripS l ++ t :=
  reverseDropWhile_prefix _ l

theorem pyStrip_prefix (l : List Char) :
    ∃ t, l.dropWhile pySpace = pyStripChars l ++ t :=
  reverseDropWhile_prefix pySpace (l.dropWhile pySpace)

theorem mem_of_mem_rstripS {c : Char} {l : List Char} (h : c ∈ rstripS l) :
    c ∈ l := by
  unfold rstripS at h
  have h1 := List.mem_reverse.mp h
  have h2 := (List.dropWhile_sublist (l := l.reverse)
    (p := fun c => c = 's')).subset h1
  exact List.mem_reverse.mp h2

theorem mem_of_mem_pyStrip {c : Char} {l : List Char}
    (h : c ∈ pyStripChars l) : c ∈ l := by
  unfold pyStripChars at h
  have h1 := List.mem_reverse.mp h
  have h2 := (List.dropWhile_sublist (l := (l.dropWhile pySpace).reverse)
    (p := pySpace)).subset h1
  have h3 := List.mem_reverse.mp h2
  exact (List.dropWhile_sublist (l := l) (p := pySpace)).subset h3

theorem dropWhile_head_false {p : Char → Bool} {l : List Char} {c : Char}
    {t : List Char} (h : l.dropWhile p = c :: t) : p c = false := by
  induction l with
  | nil => cases h
  | cons x xs ih =>
    rw [List.dropWhile_cons] at h
    by_cases hx : p x
    · rw [if_pos hx] at h
      exact ih h
    · rw [if_neg hx] at h
      cases h
      simpa using hx

theorem sanitize_unit_ne_empty (u : String) (hu : u ≠ "") :
    sanitize_unit u =
      (match unit_map.find?
          (fun p => p.1.data = rstripS (pyStripChars (u.data.map pyToLower))) with
       | some p => p.2
       | none => ⟨rstripS (pyStripChars (u.data.map pyToLower))⟩) := by
  simp only [sanitize_unit, if_neg hu]

theorem sanitize_unit_fixes_map_values :
    ∀ pr ∈ unit_map, sanitize_unit pr.2 = pr.2 ∧ pr.2 ≠ "" ∧
      pr.2 ≠ "dimensionless" ∧ endsWithPySpace pr.2 = false := by
  decide

/-! ## C6: sanitize_unit is not idempotent in general -/

/-- C6 counterexample: on the empty (absent) unit, `sanitize_unit` returns
the canonical `"dimensionless"`, but sanitizing that canonical value again
strips its trailing letters `ss` (the `rstrip('s')` de-pluralization) and
yields `"dimensionle"` — so `sanitize(sanitize u) = sanitize u` fails at
`u = ""`, and the canonical name `"dimensionless"` is not a fixed point. -/
theorem C6_counterexample :
    sanitize_unit "" = "dimensionless" ∧
    sanitize_unit (sanitize_unit "") = "dimensionle" ∧
    sanitize_unit (sanitize_unit "") ≠ sanitize_unit "" := by
  refine ⟨rfl, by decide, by decide⟩

/-- C6 amended: sanitizing `"cups"` and `"cup"` both yield the canonical
`"cup"`, and `sanitize_unit` is idempotent on every input whose sanitized
value is non-empty, is not `"dimensionless"` (whose trailing `s`s the
second pass strips), and does not end in whitespace (which the trailing
`rstrip('s')` can expose, e.g. `"cup s"` → `"cup "` → `"cup"`); in
particular every synonym-table output other than `"dimensionless"` is a
fixed point. -/
theorem C6_sanitize_idempotent_amended :
    (sanitize_unit "cups" = "cup" ∧ sanitize_unit "cup" = "cup") ∧
    (∀ u : String, sanitize_unit u ≠ "" → sanitize_unit u ≠ "dimensionless" →
      endsWithPySpace (sanitize_unit u) = false →
      sanitize_unit (sanitize_unit u) = sanitize_unit u) := by
  refine ⟨⟨rfl, rfl⟩, ?_⟩
  intro u h1 h2 h3
  by_cases hu : u = ""
  · exact absurd (by rw [hu]; rfl) h2
  · rw [sanitize_unit_ne_empty u hu] at h1 h2 h3 ⊢
    cases hf : unit_map.find?
        (fun p => p.1.data = rstripS (pyStripChars (u.data.map pyToLower))) with
    | some pr =>
      show sanitize_unit pr.2 = pr.2
      exact (sanitize_unit_fixes_map_values pr
        (List.mem_of_find?_eq_some hf)).1
    | none =>
      -- the pass-through case: v = ⟨w⟩ with w not a synonym key
      rw [hf] at h1 h3
      replace h1 : (⟨rstripS (pyStripChars (u.data.map pyToLower))⟩ : String)
          ≠ "" := h1
      replace h3 : endsWithPySpace
          ⟨rstripS (pyStripChars (u.data.map pyToLower))⟩ = false := h3
      show sanitize_unit ⟨rstripS (pyStripChars (u.data.map pyToLower))⟩
        = ⟨rstripS (pyStripChars (u.data.map pyToLower))⟩
      set w : List Char := rstripS (pyStripChars (u.data.map pyToLower)) with hw
      have hwne : w ≠ [] := by
        intro hnil
        exact h1 (by rw [hnil])
      -- w is all lower case
      have hlow : w.map pyToLower = w := by
        apply map_id_of_mem
        intro c hc
        have hc1 : c ∈ u.data.map pyToLower :=
          mem_of_mem_pyStrip (mem_of_mem_rstripS (hw ▸ hc))
        obtain ⟨d, _, hd2⟩ := List.mem_map.mp hc1
        rw [← hd2]
        exact pyToLower_idem d
      -- decompose w at the front and at the back
      obtain ⟨c0, t0, hw0⟩ : ∃ c0 t0, w = c0 :: t0 := by
        cases hwc : w with
        | nil => exact absurd hwc hwne
        | cons a b => exact ⟨a, b, rfl⟩
      obtain ⟨d, r1, hrev⟩ : ∃ d r1, w.reverse = d :: r1 := by
        cases hwr : w.reverse with
        | nil => exact absurd (List.reverse_eq_nil_iff.mp hwr) hwne
        | cons a b => exact ⟨a, b, rfl⟩
      -- the head of w is not whitespace
      have hhead : pySpace c0 = false := by
        obtain ⟨t1, ht1⟩ := rstripS_prefix (pyStripChars (u.data.map pyToLower))
        obtain ⟨t2, ht2⟩ := pyStrip_prefix (u.data.map pyToLower)
        rw [← hw] at ht1
        rw [ht1, hw0] at ht2
        exact dropWhile_head_false ht2
      -- the last character of w is not whitespace
      have hlastw : pySpace d = false := by
        have hds : w.getLast? = some d := by
          rw [← List.head?_reverse, hrev]
          rfl
        unfold endsWithPySpace at h3
        rw [hds] at h3
        exact h3
      -- the last character of w is not 's'
      have hlasts : (d = 's') = False := by
        have : w.reverse =
            (pyStripChars (u.data.map pyToLower)).reverse.dropWhile
              (fun c => c = 's') := by
          rw [hw]
          unfold rstripS
          rw [List.reverse_reverse]
        rw [hrev] at this
        have := dropWhile_head_false this.symm
        simpa using this
      -- the three passes leave w unchanged
      have hstripw : pyStripChars w = w := by
        unfold pyStripChars
        rw [hw0, List.dropWhile_cons, if_neg (by simp [hhead]), ← hw0, hrev,
          List.dropWhile_cons, if_neg (by simp [hlastw]), ← hrev,
          List.reverse_reverse]
      have hrsw : rstripS w = w := by
        unfold rstripS
        rw [hrev, List.dropWhile_cons, if_neg (by simp [hlasts]), ← hrev,
          List.reverse_reverse]
      have hne2 : (⟨w⟩ : String) ≠ "" := by
        intro hc
        exact hwne (by
          have := congrArg String.data hc
          simpa using this)
      rw [sanitize_unit_ne_empty ⟨w⟩ hne2]
      have hwdata : (⟨w⟩ : String).data = w := rfl
      rw [hwdata, hlow, hstripw, hrsw, hf]

/-- Witness for the amended C6: applied at `u = "cups"`. -/
theorem C6_amended_witness :
    sanitize_unit "cups" ≠ "" ∧ sanitize_unit "cups" ≠ "dimensionless" ∧
    endsWithPySpace (sanitize_unit "cups") = false ∧
    sanitize_unit (sanitize_unit "cups") = sanitize_unit "cups" :=
  ⟨by decide, by decide, by decide,
   C6_sanitize_idempotent_amended.2 "cups" (by decide) (by decide) (by decide)⟩

/-! ## Parser lemmas (for C7) -/

theorem parseFloatE_some {l : List Char} {v : PyFloat}
    (h : pyFloatOfChars l = some v) : parseFloatE l = .ok v := by
  unfold parseFloatE
  rw [h]

theorem parseFloatE_none {l : List Char} (h : pyFloatOfChars l = none) :
    parseFloatE l = .error .valueError := by
  unfold parseFloatE
  rw [h]

theorem parseFloatE_ne_index (l : List Char) :
    parseFloatE l ≠ .error .indexError := by
  unfold parseFloatE
  cases pyFloatOfChars l <;> simp

theorem pyDiv_ne_index (a b : PyFloat) : pyDiv a b ≠ .error .indexError := by
  unfold pyDiv
  split <;> simp

theorem exists_cons_cons_of_mem {c : Char} {l : List Char} (h : c ∈ l) :
    ∃ p0 p1 pt, splitChar c l = p0 :: p1 :: pt := by
  have hlen := splitChar_length_of_mem h
  cases hs : splitChar c l with
  | nil => rw [hs] at hlen; simp at hlen
  | cons a t =>
    cases t with
    | nil => rw [hs] at hlen; simp at hlen
    | cons b t2 => exact ⟨a, b, t2, rfl⟩

theorem convertMixed_of_parts {s : String} {p0 p1 : List Char}
    {pt : List (List Char)} (hparts : splitChar ' ' s.data = p0 :: p1 :: pt) :
    convertMixed s = (do
      let whole ← parseFloatE p0
      let num0 ← pyIndex (splitChar '/' p1) 0
      let num ← parseFloatE num0
      let den0 ← pyIndex (splitChar '/' p1) 1
      let den ← parseFloatE den0
      let frac ← pyDiv num den
      return pyAdd whole frac) := by
  unfold convertMixed
  rw [hparts]
  rfl

theorem convertMixed_index_of_shape {s : String}
    (hsp : s.data.contains ' ' = true) (hm : mixedIndexShape s = true) :
    convertMixed s = .error .indexError := by
  obtain ⟨p0, p1, pt, hparts⟩ := exists_cons_cons_of_mem (mem_of_contains hsp)
  unfold mixedIndexShape at hm
  rw [hparts] at hm
  simp only [List.getD_cons_zero, List.getD_cons_succ, Bool.and_eq_true,
    Bool.not_eq_true'] at hm
  obtain ⟨⟨hw, hns⟩, hn⟩ := hm
  obtain ⟨w, hw'⟩ := Option.isSome_iff_exists.mp hw
  obtain ⟨n, hn'⟩ := Option.isSome_iff_exists.mp hn
  have hfp : splitChar '/' p1 = [p1] :=
    splitChar_of_not_mem (not_mem_of_not_contains hns)
  have hi0 : pyIndex [p1] 0 = .ok p1 := rfl
  have hi1 : pyIndex [p1] 1 = .error .indexError := rfl
  simp only [convertMixed_of_parts hparts, hfp, parseFloatE_some hw',
    parseFloatE_some hn', hi0, hi1, exceptBindOk, exceptBindErr]

theorem convertMixed_ne_index {s : String}
    (hsp : s.data.contains ' ' = true) (hm : mixedIndexShape s = false) :
    convertMixed s ≠ .error .indexError := by
  obtain ⟨p0, p1, pt, hparts⟩ := exists_cons_cons_of_mem (mem_of_contains hsp)
  have hgd0 : (splitChar ' ' s.data).getD 0 [] = p0 := by simp [hparts]
  have hgd1 : (splitChar ' ' s.data).getD 1 [] = p1 := by simp [hparts]
  rw [convertMixed_of_parts hparts]
  cases hw : pyFloatOfChars p0 with
  | none => simp [parseFloatE_none hw, exceptBindErr]
  | some w =>
    cases hcb : p1.contains '/' with
    | true =>
      obtain ⟨f0, f1, ft, hfp⟩ := exists_cons_cons_of_mem (mem_of_contains hcb)
      have hi0 : pyIndex (f0 :: f1 :: ft) 0 = .ok f0 := rfl
      have hi1 : pyIndex (f0 :: f1 :: ft) 1 = .ok f1 := rfl
      cases hn : pyFloatOfChars f0 with
      | none =>
        simp [parseFloatE_some hw, parseFloatE_none hn, hfp, hi0,
          exceptBindOk, exceptBindErr]
      | some n =>
        cases hd : pyFloatOfChars f1 with
        | none =>
          simp [parseFloatE_some hw, parseFloatE_some hn, parseFloatE_none hd,
            hfp, hi0, hi1, exceptBindOk, exceptBindErr]
        | some d =>
          cases hdv : pyDiv n d with
          | error e =>
            have hne := pyDiv_ne_index n d
            rw [hdv] at hne
            simp [parseFloatE_some hw, parseFloatE_some hn,
              parseFloatE_some hd, hfp, hi0, hi1, hdv, exceptBindOk,
              exceptBindErr]
            intro hc
            exact hne (by rw [hc])
          | ok q =>
            simp [parseFloatE_some hw, parseFloatE_some hn,
              parseFloatE_some hd, hfp, hi0, hi1, hdv, exceptBindOk]
    | false =>
      have hfp : splitChar '/' p1 = [p1] :=
        splitChar_of_not_mem (not_mem_of_not_contains hcb)
      have hi0 : pyIndex [p1] 0 = .ok p1 := rfl
      cases hn : pyFloatOfChars p1 with
      | none =>
        simp [parseFloatE_some hw, parseFloatE_none hn, hfp, hi0,
          exceptBindOk, exceptBindErr]
      | some n =>
        exfalso
        unfold mixedIndexShape at hm
        rw [hgd0, hgd1, hw, hn, hcb] at hm
        simp at hm

theorem convertFrac_ne_index {s : String}
    (hsl : s.data.contains '/' = true) :
    convertFrac s ≠ .error .indexError := by
  obtain ⟨f0, f1, ft, hfp⟩ := exists_cons_cons_of_mem (mem_of_contains hsl)
  have hi0 : pyIndex (f0 :: f1 :: ft) 0 = .ok f0 := rfl
  have hi1 : pyIndex (f0 :: f1 :: ft) 1 = .ok f1 := rfl
  unfold convertFrac
  cases hn : pyFloatOfChars f0 with
  | none => simp [hfp, hi0, parseFloatE_none hn, exceptBindOk, exceptBindErr]
  | some n =>
    cases hd : pyFloatOfChars f1 with
    | none =>
      simp [hfp, hi0, hi1, parseFloatE_some hn, parseFloatE_none hd,
        exceptBindOk, exceptBindErr]
    | some d =>
      simp only [hfp, hi0, hi1, parseFloatE_some hn, parseFloatE_some hd,
        exceptBindOk]
      exact pyDiv_ne_index n d

theorem convertBody_of_uni_some {s : String} {p : String × ℚ}
    (h : unicodesTable.find? (fun p => p.1 = s) = some p) :
    convertBody s = .ok (.finite p.2) := by
  unfold convertBody
  rw [h]

theorem convertBody_of_uni_none {s : String}
    (h : unicodesTable.find? (fun p => p.1 = s) = none) :
    convertBody s =
      (if s.data.contains ' ' ∧ s.data.contains '/' then convertMixed s
       else if s.data.contains '/' then convertFrac s
       else convertPlain s) := by
  unfold convertBody
  rw [h]

/-! ## C7: totality of the quantity parser -/

/-- C7 counterexample: `convert_quantity_to_float` is not total and not
always finite.  On `"1 2 3/4"` (space and slash present, but the second
token `"2"` holds no slash) the mixed-number branch evaluates
`frac_parts[1]` on a one-element list and raises `IndexError`, which the
`except (ValueError, ZeroDivisionError)` clause does not catch; and on
`"inf"` Python's `float()` accepts the literal and the function returns
the non-finite infinity, not a finite float. -/
theorem C7_counterexample :
    convert_quantity_to_float "1 2 3/4" = .error .indexError ∧
    convert_quantity_to_float "inf" = .ok .inf := by
  constructor
  · rfl
  · rfl

/-- C7 amended: for every string *outside* the `badMixedShape` family
(space and slash present, first space-token a float, second space-token
slash-free yet a float), `convert_quantity_to_float` returns a value
without raising, while every `badMixedShape` input raises `IndexError`;
malformed inputs the function handles — here, slash-free strings that
`float()` rejects, and the zero-denominator `"1/0"` — yield exactly 0.0;
and the returned value can be non-finite (see the counterexample), since
`float()` accepts `inf`/`nan` literals. -/
theorem C7_parser_totality_amended :
    (∀ s : String, badMixedShape s = false →
      ∃ v, convert_quantity_to_float s = .ok v) ∧
    (∀ s : String, badMixedShape s = true →
      convert_quantity_to_float s = .error .indexError) ∧
    (∀ s : String, s.data.contains '/' = false →
      unicodesTable.find? (fun p => p.1 = s) = none →
      pyFloatOfChars s.data = none →
      convert_quantity_to_float s = .ok (.finite 0)) ∧
    convert_quantity_to_float "1/0" = .ok (.finite 0) := by
  refine ⟨?_, ?_, ?_, ?_⟩
  · intro s hb
    have hni : convertBody s ≠ .error .indexError := by
      cases hu : unicodesTable.find? (fun p => p.1 = s) with
      | some p => rw [convertBody_of_uni_some hu]; simp
      | none =>
        rw [convertBody_of_uni_none hu]
        by_cases hmx : s.data.contains ' ' ∧ s.data.contains '/'
        · rw [if_pos hmx]
          apply convertMixed_ne_index hmx.1
          unfold badMixedShape at hb
          rw [hmx.1, hmx.2, hu] at hb
          simpa using hb
        · rw [if_neg hmx]
          by_cases hsl : s.data.contains '/' = true
          · rw [if_pos hsl]
            exact convertFrac_ne_index hsl
          · rw [if_neg hsl]
            exact parseFloatE_ne_index s.data
    cases hcb : convertBody s with
    | ok v =>
      exact ⟨v, by unfold convert_quantity_to_float; rw [hcb]⟩
    | error e =>
      cases e with
      | valueError =>
        exact ⟨.finite 0, by unfold convert_quantity_to_float; rw [hcb]⟩
      | zeroDivisionError =>
        exact ⟨.finite 0, by unfold convert_quantity_to_float; rw [hcb]⟩
      | indexError => exact absurd hcb hni
  · intro s hb
    unfold badMixedShape at hb
    simp only [Bool.and_eq_true, Option.isNone_iff_eq_none] at hb
    obtain ⟨⟨⟨hsp, hsl⟩, hun⟩, hm⟩ := hb
    have hcb : convertBody s = .error .indexError := by
      rw [convertBody_of_uni_none hun, if_pos ⟨hsp, hsl⟩]
      exact convertMixed_index_of_shape hsp hm
    unfold convert_quantity_to_float
    rw [hcb]
  · intro s hsl hun hpf
    have hmx : ¬ (s.data.contains ' ' ∧ s.data.contains '/') := by
      intro h
      rw [hsl] at h
      simp at h
    have hsl2 : ¬ (s.data.contains '/' = true) := by
      rw [hsl]
      simp
    have hcb : convertBody s = .error .valueError := by
      rw [convertBody_of_uni_none hun, if_neg hmx, if_neg hsl2]
      exact parseFloatE_none hpf
    unfold convert_quantity_to_float
    rw [hcb]
  · rfl

/-- Witness for the amended C7: totality applied at `"abc"` and the
`IndexError` family applied at `"1 2 3/4"`. -/
theorem C7_witness :
    (∃ v, convert_quantity_to_float "abc" = .ok v) ∧
    convert_quantity_to_float "1 2 3/4" = .error .indexError :=
  ⟨C7_parser_totality_amended.1 "abc" (by decide),
   C7_parser_totality_amended.2.1 "1 2 3/4" (by decide)⟩

end MealEngine
